import Mathlib

/-!
Verification of the tennis-intel aggregation service (src/src/index.ts).

The TypeScript handlers are shallowly embedded as pure Lean functions:
JavaScript numbers used as integers become `Int`, strings that are
lowercased or searched become `List Char`, optional-chained fields become
`Option`, and timestamp parsing (`new Date(s).getTime()`) is abstracted to
the resulting integer timestamp, which is the only use the handlers make
of those fields apart from copying them.
-/

namespace TennisIntel

/-- JavaScript `xs.slice(0, e)`: a negative end index counts back from the
end of the array, and any end index is clamped to the array bounds. -/
def jsTake (xs : List α) (e : Int) : List α :=
  if e < 0 then xs.take ((xs.length : Int) + e).toNat else xs.take e.toNat

/-- JavaScript `x || y` on an optional string: `undefined` and the empty
string are falsy and fall through to the right operand. -/
def jsOrOpt (x y : Option String) : Option String :=
  match x with
  | some s => if s = "" then y else some s
  | none => y

/-- JavaScript `x || d` on an optional string with a string default. -/
def jsOrStr (x : Option String) (d : String) : String :=
  match x with
  | some s => if s = "" then d else s
  | none => d

/-- Tour selector, the zod enum `['atp', 'wta', 'both']`. -/
inductive Tour
  | atp
  | wta
  | both
deriving DecidableEq, Repr

/-- An upstream HTTP response as seen by `fetchESPN`: a status code and a
parsed JSON body (abstracted to an arbitrary type). -/
structure HttpResponse (α : Type) where
  status : Nat
  body : α
deriving DecidableEq, Repr

/-- WHATWG `Response.ok`: status in the inclusive range 200–299. -/
def respOk (r : HttpResponse α) : Bool :=
  decide (200 ≤ r.status ∧ r.status ≤ 299)

/-- The helper `fetchESPN` (index.ts:21–25): throws carrying the HTTP status when
`response.ok` is false, otherwise returns the parsed JSON body. -/
def fetchESPN (r : HttpResponse α) : Except Nat α :=
  if respOk r then Except.ok r.body else Except.error r.status

/-- One entry of the upstream `ranks` array. The optional chain
`r.athlete?.f` is flattened: each accessed leaf field is an `Option`.
Name fields that get lowercased are `List Char`. -/
structure UpRank where
  current : Int
  previous : Int
  trend : Option String
  displayName : Option (List Char)
  firstName : Option (List Char)
  lastName : Option (List Char)
  athleteId : Option String
  points : Option Int
  profileUrl : Option String
deriving DecidableEq, Repr

/-- A `rankings` array element; only its `ranks` field is accessed. -/
structure RankGroup where
  ranks : Option (List UpRank)
deriving DecidableEq, Repr

/-- An upstream rankings response; only `rankings` is accessed. -/
structure RankResponse where
  rankings : Option (List RankGroup)
deriving DecidableEq, Repr

/-- The optional chain `data.rankings?.[0]?.ranks` (index.ts:74, 110, 293). -/
def ranksChain (d : RankResponse) : Option (List UpRank) :=
  (d.rankings.bind List.head?).bind RankGroup.ranks

/-- Output record of the paid rankings handlers (index.ts:74–85). -/
structure RankingEntry where
  rank : Int
  previousRank : Int
  movement : Int
  trend : Option String
  name : Option (List Char)
  firstName : Option (List Char)
  lastName : Option (List Char)
  id : Option String
  points : Option Int
  profileUrl : Option String
deriving DecidableEq, Repr

/-- The per-entry mapping of the rankings handlers (index.ts:74–85). -/
def mapRank (r : UpRank) : RankingEntry :=
  { rank := r.current
    previousRank := r.previous
    movement := r.previous - r.current
    trend := r.trend
    name := r.displayName
    firstName := r.firstName
    lastName := r.lastName
    id := r.athleteId
    points := r.points
    profileUrl := r.profileUrl }

/-- Output envelope of the paid rankings handlers. -/
structure RankingsOutput where
  tour : String
  totalRanked : Nat
  rankings : List RankingEntry
deriving DecidableEq, Repr

/-- Body shared verbatim by the `atp-rankings` (index.ts:70–95) and
`wta-rankings` (index.ts:106–131) handlers, which differ only in URL and
tour label. The zod default 50 is applied for an absent `limit`, then
`Math.min(limit, 100)`; `data.rankings?.[0]?.ranks?.slice(0, limit).map(...) || []`. -/
def fullRankings (tour : String) (d : RankResponse) (limitInput : Option Int) :
    RankingsOutput :=
  let limit : Int := min (limitInput.getD 50) 100
  let rankings :=
    ((ranksChain d).map (fun ranks => (jsTake ranks limit).map mapRank)).getD []
  { tour := tour, totalRanked := rankings.length, rankings := rankings }

/-- The `atp-rankings` handler (index.ts:63–96). -/
def atpRankings : RankResponse → Option Int → RankingsOutput :=
  fullRankings "ATP"

/-- The `wta-rankings` handler (index.ts:99–132). -/
def wtaRankings : RankResponse → Option Int → RankingsOutput :=
  fullRankings "WTA"

/-- Entry of the free overview lists: only rank, name and points
(index.ts:39–49). -/
structure OverviewEntry where
  rank : Int
  name : Option (List Char)
  points : Option Int
deriving DecidableEq, Repr

/-- The chain `data.rankings?.[0]?.ranks?.slice(0, 5).map(...) || []` (index.ts:39–49). -/
def overviewTop5 (d : RankResponse) : List OverviewEntry :=
  ((ranksChain d).map (fun ranks =>
    ranks.take 5 |>.map fun r =>
      { rank := r.current, name := r.displayName, points := r.points })).getD []

/-- Output of the free `overview` handler (index.ts:28–60). -/
structure OverviewOutput where
  atp : List OverviewEntry
  wta : List OverviewEntry
deriving DecidableEq, Repr

/-- The free `overview` handler (index.ts:33–59). -/
def overviewHandler (atpD wtaD : RankResponse) : OverviewOutput :=
  { atp := overviewTop5 atpD, wta := overviewTop5 wtaD }

/-- Upstream article image; only `url` is accessed. -/
structure UpImage where
  url : Option String
deriving DecidableEq, Repr

/-- Upstream article links; `links?.web?.href` and `links?.mobile?.href`
flattened to their accessed leaves. -/
structure UpLinks where
  webHref : Option String
  mobileHref : Option String
deriving DecidableEq, Repr

/-- Upstream article category; only `description` is accessed. -/
structure UpCategory where
  description : Option String
deriving DecidableEq, Repr

/-- An upstream news article. `published` is abstracted to the integer
timestamp `new Date(a.published).getTime()` yields; the handler only
compares it and copies it. -/
structure UpArticle where
  id : Option String
  headline : Option String
  description : Option String
  published : Int
  lastModified : Option String
  type : Option String
  images : Option (List UpImage)
  links : Option UpLinks
  categories : Option (List UpCategory)
deriving DecidableEq, Repr

/-- An upstream news response; only `articles` is accessed. -/
structure NewsResponse where
  articles : Option (List UpArticle)
deriving DecidableEq, Repr

/-- Mapped article record (index.ts:156–166). -/
structure Article where
  id : Option String
  headline : Option String
  description : Option String
  published : Int
  lastModified : Option String
  type : Option String
  imageUrl : Option String
  link : Option String
  categories : Option (List String)
deriving DecidableEq, Repr

/-- JavaScript `.filter(Boolean)` over the mapped category descriptions:
drops `undefined` and the empty string (both falsy). -/
def filterBoolean (l : List (Option String)) : List String :=
  l.filterMap fun o => o.bind fun s => if s = "" then none else some s

/-- The per-article mapping of the news handler (index.ts:156–166). -/
def mapArticle (a : UpArticle) : Article :=
  { id := a.id
    headline := a.headline
    description := a.description
    published := a.published
    lastModified := a.lastModified
    type := a.type
    imageUrl := (a.images.bind List.head?).bind UpImage.url
    link := jsOrOpt (a.links.bind UpLinks.webHref) (a.links.bind UpLinks.mobileHref)
    categories := a.categories.map fun cs => filterBoolean (cs.map UpCategory.description) }

/-- The news sort comparator `(a, b) => new Date(b.published).getTime() -
new Date(a.published).getTime()` (index.ts:172) as the "a sorts no later
than b" relation: descending by published timestamp. -/
def articleLe (a b : Article) : Bool :=
  decide (b.published ≤ a.published)

/-- The dedupe filter with its `seen` set (index.ts:170–177): keeps an
article only when its id has not been seen yet, accumulating seen ids. -/
def dedupeById : List Article → List (Option String) → List Article
  | [], _ => []
  | a :: rest, seen =>
    if a.id ∈ seen then dedupeById rest seen
    else a :: dedupeById rest (a.id :: seen)

/-- The upstream news responses fetched for a tour selector
(index.ts:144–152): atp, wta, or both in that order. -/
def selectNews (t : Tour) (atpD wtaD : NewsResponse) : List NewsResponse :=
  match t with
  | Tour.atp => [atpD]
  | Tour.wta => [wtaD]
  | Tour.both => [atpD, wtaD]

/-- The list `allArticles` (index.ts:155–167): flatten each response's
`articles || []` through the per-article mapping. -/
def newsAll (t : Tour) (atpD wtaD : NewsResponse) : List Article :=
  (selectNews t atpD wtaD).flatMap fun d => (d.articles.getD []).map mapArticle

/-- The merged list sorted by published descending (index.ts:172); JS
`Array.prototype.sort` is stable, as is `List.mergeSort`. -/
def newsSorted (t : Tour) (atpD wtaD : NewsResponse) : List Article :=
  (newsAll t atpD wtaD).mergeSort articleLe

/-- The sorted list after the dedupe filter (index.ts:173–177). -/
def newsDeduped (t : Tour) (atpD wtaD : NewsResponse) : List Article :=
  dedupeById (newsSorted t atpD wtaD) []

/-- Output envelope of the news handler (index.ts:180–187). -/
structure NewsOutput where
  tour : Tour
  count : Nat
  articles : List Article
deriving DecidableEq, Repr

/-- The `news` handler (index.ts:143–188): sort, dedupe, then
`.slice(0, Math.min(limit, 25))` with zod default 10. -/
def newsHandler (t : Tour) (atpD wtaD : NewsResponse) (limitInput : Option Int) :
    NewsOutput :=
  let limit : Int := min (limitInput.getD 10) 25
  let uniqueArticles := jsTake (newsDeduped t atpD wtaD) limit
  { tour := t, count := uniqueArticles.length, articles := uniqueArticles }

/-- Upstream linescore; only `value` is accessed. -/
structure UpLinescore where
  value : Option Int
deriving DecidableEq, Repr

/-- Upstream competitor, optional chains flattened. -/
structure UpCompetitor where
  displayName : Option String
  seed : Option Int
  winner : Option Bool
  linescores : Option (List UpLinescore)
deriving DecidableEq, Repr

/-- Upstream competition, with `status?.type?` chains flattened and
`startDate` abstracted to the timestamp its parse yields. -/
structure UpCompetition where
  statusState : Option String
  statusDescription : Option String
  statusCompleted : Option Bool
  roundDisplayName : Option String
  competitors : Option (List UpCompetitor)
  startDate : Int
  venueFullName : Option String
deriving DecidableEq, Repr

/-- Upstream scoreboard event. -/
structure UpEvent where
  name : Option String
  competitions : Option (List UpCompetition)
  venueFullName : Option String
deriving DecidableEq, Repr

/-- An upstream scoreboard response; only `events` is accessed. -/
structure ScoreboardResponse where
  events : Option (List UpEvent)
deriving DecidableEq, Repr

/-- A mapped player inside a match (index.ts:232–237). -/
structure MatchPlayer where
  name : String
  seed : Option Int
  isWinner : Bool
  sets : List (Option Int)
deriving DecidableEq, Repr

/-- A mapped match record (index.ts:225–240). -/
structure Match where
  tour : String
  tournament : String
  round : String
  status : String
  isLive : Bool
  isComplete : Bool
  players : List MatchPlayer
  startTime : Int
  venue : String
deriving DecidableEq, Repr

/-- The match built for one competition of one event (index.ts:222–240).
`c.winner || false` and `comp.status?.type?.completed || false` coincide
with `getD false` on booleans. -/
def mapCompetition (tour : String) (event : UpEvent) (comp : UpCompetition) :
    Match :=
  { tour := tour
    tournament := jsOrStr event.name "Tournament"
    round := jsOrStr comp.roundDisplayName ""
    status := jsOrStr comp.statusDescription "Unknown"
    isLive := comp.statusState == some "in"
    isComplete := comp.statusCompleted.getD false
    players := (comp.competitors.getD []).map fun c =>
      { name := jsOrStr c.displayName "Unknown"
        seed := c.seed
        isWinner := c.winner.getD false
        sets := (c.linescores.getD []).map UpLinescore.value }
    startTime := comp.startDate
    venue := jsOrStr (jsOrOpt event.venueFullName comp.venueFullName) "" }

/-- The labelled scoreboard fetches for a tour selector (index.ts:200–206). -/
def selectScore (t : Tour) (atpD wtaD : ScoreboardResponse) :
    List (String × ScoreboardResponse) :=
  match t with
  | Tour.atp => [("ATP", atpD)]
  | Tour.wta => [("WTA", wtaD)]
  | Tour.both => [("ATP", atpD), ("WTA", wtaD)]

/-- The flattening loops of the live-matches handler (index.ts:215–243):
every competition of every event of every selected response. -/
def buildMatches (selected : List (String × ScoreboardResponse)) : List Match :=
  selected.flatMap fun td =>
    (td.2.events.getD []).flatMap fun event =>
      (event.competitions.getD []).map (mapCompetition td.1 event)

/-- The live-matches sort comparator (index.ts:246–250) as the "a sorts no
later than b" relation: live before non-live, then ascending start time. -/
def matchLe (a b : Match) : Bool :=
  if a.isLive && !b.isLive then true
  else if !a.isLive && b.isLive then false
  else decide (a.startTime ≤ b.startTime)

/-- Output envelope of the live-matches handler (index.ts:252–260).
The source field `matches` is a reserved word in Lean, hence `matches'`. -/
structure LiveOutput where
  tour : Tour
  totalMatches : Nat
  liveCount : Nat
  matches' : List Match
deriving DecidableEq, Repr

/-- The `live-matches` handler (index.ts:199–261): build, sort in place,
then count; `liveCount` filters the sorted array. -/
def liveMatchesHandler (t : Tour) (atpD wtaD : ScoreboardResponse) : LiveOutput :=
  let ms := (buildMatches (selectScore t atpD wtaD)).mergeSort matchLe
  { tour := t
    totalMatches := ms.length
    liveCount := (ms.filter Match.isLive).length
    matches' := ms }

/-- JavaScript `String.prototype.toLowerCase` over our character-list
strings (ASCII-faithful). -/
def toLowerStr (s : List Char) : List Char :=
  s.map Char.toLower

/-- The expression `r.athlete?.f?.toLowerCase() || ''` (index.ts:295–297): lowercase when
present, empty string when absent. -/
def optLower (o : Option (List Char)) : List Char :=
  (o.map toLowerStr).getD []

/-- JavaScript `hay.includes(needle)`: substring (infix) containment. -/
def strIncludes (hay needle : List Char) : Bool :=
  decide (needle <:+: hay)

/-- The search predicate (index.ts:295–299): the lowercased query is a
substring of the lowercased displayName, firstName, or lastName. -/
def matchesQuery (qL : List Char) (r : UpRank) : Bool :=
  strIncludes (optLower r.displayName) qL
    || strIncludes (optLower r.firstName) qL
    || strIncludes (optLower r.lastName) qL

/-- A player-search hit (index.ts:300–312). -/
structure SearchHit where
  tour : String
  rank : Int
  previousRank : Int
  movement : Int
  name : Option (List Char)
  firstName : Option (List Char)
  lastName : Option (List Char)
  id : Option String
  points : Option Int
  trend : Option String
  profileUrl : Option String
deriving DecidableEq, Repr

/-- The hit pushed for a matching rank entry (index.ts:300–312). -/
def mkHit (tour : String) (r : UpRank) : SearchHit :=
  { tour := tour
    rank := r.current
    previousRank := r.previous
    movement := r.previous - r.current
    name := r.displayName
    firstName := r.firstName
    lastName := r.lastName
    id := r.athleteId
    points := r.points
    trend := r.trend
    profileUrl := r.profileUrl }

/-- The labelled rankings fetches for a tour selector (index.ts:274–280). -/
def selectRank (t : Tour) (atpD wtaD : RankResponse) :
    List (String × RankResponse) :=
  match t with
  | Tour.atp => [("ATP", atpD)]
  | Tour.wta => [("WTA", wtaD)]
  | Tour.both => [("ATP", atpD), ("WTA", wtaD)]

/-- The collection loop of the player-search handler (index.ts:290–315):
over each selected response's `rankings?.[0]?.ranks || []`, push a hit for
every entry matching the lowercased query. -/
def searchPlayers (q : List Char) (t : Tour) (atpD wtaD : RankResponse) :
    List SearchHit :=
  let qL := toLowerStr q
  (selectRank t atpD wtaD).flatMap fun td =>
    (((ranksChain td.2).getD []).filter (matchesQuery qL)).map (mkHit td.1)

/-- The player-search sort comparator `(a, b) => a.rank - b.rank`
(index.ts:322) as the "a sorts no later than b" relation. -/
def hitLe (a b : SearchHit) : Bool :=
  decide (a.rank ≤ b.rank)

/-- Output envelope of the player-search handler (index.ts:317–325). -/
structure SearchOutput where
  query : List Char
  tour : Tour
  found : Nat
  players : List SearchHit
deriving DecidableEq, Repr

/-- The `player-search` handler (index.ts:273–326): collect hits, report
their count, and return them sorted ascending by rank. -/
def playerSearchHandler (q : List Char) (t : Tour) (atpD wtaD : RankResponse) :
    SearchOutput :=
  let players := searchPlayers q t atpD wtaD
  { query := q
    tour := t
    found := players.length
    players := players.mergeSort hitLe }

/-- The zod input schema of player-search (index.ts:268–271):
`query: z.string()` is required but carries no minimum length;
`tour` is optional with default `both`. A missing required field is a
schema violation rejected before the handler (and hence before any
upstream call); an empty string satisfies `z.string()`. -/
def parsePlayerSearchInput (q : Option (List Char)) (t : Option Tour) :
    Except String (List Char × Tour) :=
  match q with
  | none => Except.error "query: Required"
  | some s => Except.ok (s, t.getD Tour.both)

/-- Every entry of every selected tour's upstream ranking list, mapped to
its search hit: the comparison target for the empty-query behaviour. -/
def allSelectedHits (t : Tour) (atpD wtaD : RankResponse) : List SearchHit :=
  (selectRank t atpD wtaD).flatMap fun td =>
    ((ranksChain td.2).getD []).map (mkHit td.1)

/-- A minimal upstream rank entry with the given current and previous
rank, all optional fields absent. -/
def sampleRank (c p : Int) : UpRank :=
  { current := c, previous := p, trend := none, displayName := none
    firstName := none, lastName := none, athleteId := none, points := none
    profileUrl := none }

/-- A rankings response whose first rankings group carries the given
ranks list. -/
def sampleRankResponse (rs : List UpRank) : RankResponse :=
  { rankings := some [{ ranks := some rs }] }

/-- A two-entry sample rank entry list. -/
def rankEx : UpRank := sampleRank 3 5

/-- A sample rankings response holding a single entry. -/
def respEx : RankResponse := sampleRankResponse [rankEx]

/-- A sample news article with id "a" and the newer published timestamp. -/
def artNew : UpArticle :=
  { id := some "a", headline := none, description := none, published := 2
    lastModified := none, type := none, images := none, links := none
    categories := none }

/-- A sample news article with id "a" and the older published timestamp. -/
def artOld : UpArticle :=
  { id := some "a", headline := none, description := none, published := 1
    lastModified := none, type := none, images := none, links := none
    categories := none }

/-- A one-article ATP news response. -/
def atpNewsEx : NewsResponse := { articles := some [artNew] }

/-- A one-article WTA news response. -/
def wtaNewsEx : NewsResponse := { articles := some [artOld] }

theorem mem_fullRankings_rankings {e : RankingEntry} {tour : String}
    {d : RankResponse} {li : Option Int}
    (h : e ∈ (fullRankings tour d li).rankings) : ∃ r : UpRank, e = mapRank r := by
  simp only [fullRankings] at h
  cases hc : ranksChain d with
  | none => rw [hc] at h; simp at h
  | some ranks =>
    rw [hc] at h
    simp only [Option.map_some', Option.getD_some, List.mem_map] at h
    obtain ⟨r, _, hr⟩ := h
    exact ⟨r, hr.symm⟩

theorem mem_searchPlayers {q : List Char} {t : Tour} {atpD wtaD : RankResponse}
    {p : SearchHit} (h : p ∈ searchPlayers q t atpD wtaD) :
    ∃ td ∈ selectRank t atpD wtaD, ∃ r ∈ (ranksChain td.2).getD [],
      matchesQuery (toLowerStr q) r = true ∧ p = mkHit td.1 r := by
  simp only [searchPlayers, List.mem_flatMap, List.mem_map, List.mem_filter] at h
  obtain ⟨td, htd, r, ⟨hr, hm⟩, hp⟩ := h
  exact ⟨td, htd, r, hr, hm, hp.symm⟩

/-- C1: in every entry produced by the atp-rankings, wta-rankings, and
player-search handlers, the movement field equals previousRank minus rank. -/
theorem movement_eq_previous_sub_rank (d : RankResponse) (li : Option Int)
    (q : List Char) (t : Tour) (atpD wtaD : RankResponse) :
    (∀ e ∈ (atpRankings d li).rankings, e.movement = e.previousRank - e.rank) ∧
    (∀ e ∈ (wtaRankings d li).rankings, e.movement = e.previousRank - e.rank) ∧
    (∀ p ∈ (playerSearchHandler q t atpD wtaD).players,
      p.movement = p.previousRank - p.rank) := by
  refine ⟨?_, ?_, ?_⟩
  · intro e he
    obtain ⟨r, rfl⟩ := mem_fullRankings_rankings he
    rfl
  · intro e he
    obtain ⟨r, rfl⟩ := mem_fullRankings_rankings he
    rfl
  · intro p hp
    rw [playerSearchHandler] at hp
    simp only [List.mem_mergeSort] at hp
    obtain ⟨td, _, r, _, _, rfl⟩ := mem_searchPlayers hp
    rfl

/-- Witness for C1 at a concrete one-entry ranking response. -/
theorem movement_eq_previous_sub_rank_witness :
    (mapRank rankEx).movement = (mapRank rankEx).previousRank - (mapRank rankEx).rank :=
  (movement_eq_previous_sub_rank respEx none [] Tour.both respEx respEx).1
    (mapRank rankEx) (by decide)

/-- C2 counterexample: the input schema accepts a negative limit, and
JavaScript slice treats a negative end as counting from the end of the
array, so with limit −1 and two upstream entries one entry is returned,
which exceeds min(−1, 100). -/
theorem rankings_length_cex :
    ¬ (((atpRankings (sampleRankResponse [sampleRank 1 2, sampleRank 2 1])
        (some (-1))).rankings.length : Int) ≤ min (-1 : Int) 100) := by
  decide

/-- C2 (amended): for every nonnegative integer limit supplied to the
atp-rankings or wta-rankings handler (and for the default 50 when absent),
the length of the returned rankings list is at most min(limit, 100). -/
theorem rankings_length_le_limit (d : RankResponse) (li : Option Int)
    (h : 0 ≤ li.getD 50) :
    ((atpRankings d li).rankings.length : Int) ≤ min (li.getD 50) 100 ∧
    ((wtaRankings d li).rankings.length : Int) ≤ min (li.getD 50) 100 := by
  have key : ∀ tour : String,
      ((fullRankings tour d li).rankings.length : Int) ≤ min (li.getD 50) 100 := by
    intro tour
    have hlim : (0 : Int) ≤ min (li.getD 50) 100 := le_min h (by norm_num)
    simp only [fullRankings]
    cases hc : ranksChain d with
    | none => simpa using hlim
    | some ranks =>
      simp only [Option.map_some', Option.getD_some, List.length_map]
      unfold jsTake
      rw [if_neg (not_lt.mpr hlim)]
      have h1 := List.length_take_le (min (li.getD 50) 100).toNat ranks
      have h2 : ((min (li.getD 50) 100).toNat : Int) = min (li.getD 50) 100 :=
        Int.toNat_of_nonneg hlim
      omega
  exact ⟨key "ATP", key "WTA"⟩

/-- Witness for C2 at a concrete response and limit 7. -/
theorem rankings_length_le_limit_witness :
    ((atpRankings respEx (some 7)).rankings.length : Int) ≤
        min ((some (7 : Int)).getD 50) 100 ∧
    ((wtaRankings respEx (some 7)).rankings.length : Int) ≤
        min ((some (7 : Int)).getD 50) 100 :=
  rankings_length_le_limit respEx (some 7) (by decide)

/-- C9: totalRanked equals the length of the returned, truncated rankings
list in both paid rankings handlers. -/
theorem totalRanked_eq_returned_length (d : RankResponse) (li : Option Int) :
    (atpRankings d li).totalRanked = (atpRankings d li).rankings.length ∧
    (wtaRankings d li).totalRanked = (wtaRankings d li).rankings.length :=
  ⟨rfl, rfl⟩

/-- C6: the free overview returns at most 5 entries per tour, and every
returned entry is exactly the rank/name/points projection of an upstream
rank entry. -/
theorem overview_at_most_five (atpD wtaD : RankResponse) :
    (overviewHandler atpD wtaD).atp.length ≤ 5 ∧
    (overviewHandler atpD wtaD).wta.length ≤ 5 ∧
    (∀ e ∈ (overviewHandler atpD wtaD).atp, ∃ r ∈ (ranksChain atpD).getD [],
      e = { rank := r.current, name := r.displayName, points := r.points }) ∧
    (∀ e ∈ (overviewHandler atpD wtaD).wta, ∃ r ∈ (ranksChain wtaD).getD [],
      e = { rank := r.current, name := r.displayName, points := r.points }) := by
  have hlen : ∀ d : RankResponse, (overviewTop5 d).length ≤ 5 := by
    intro d
    simp only [overviewTop5]
    cases hc : ranksChain d with
    | none => simp
    | some ranks =>
      simp only [Option.map_some', Option.getD_some, List.length_map]
      exact List.length_take_le 5 ranks
  have hmem : ∀ d : RankResponse, ∀ e ∈ overviewTop5 d,
      ∃ r ∈ (ranksChain d).getD [],
        e = { rank := r.current, name := r.displayName, points := r.points } := by
    intro d e he
    simp only [overviewTop5] at he
    cases hc : ranksChain d with
    | none => rw [hc] at he; simp at he
    | some ranks =>
      rw [hc] at he
      simp only [Option.map_some', Option.getD_some, List.mem_map] at he
      obtain ⟨r, hr, rfl⟩ := he
      exact ⟨r, by simpa [hc] using List.mem_of_mem_take hr, rfl⟩
  exact ⟨hlen atpD, hlen wtaD, hmem atpD, hmem wtaD⟩

/-- Witness for C6 at a concrete one-entry ranking response. -/
theorem overview_at_most_five_witness :
    ∃ r ∈ (ranksChain respEx).getD [],
      ({ rank := 3, name := none, points := none } : OverviewEntry) =
        { rank := r.current, name := r.displayName, points := r.points } :=
  (overview_at_most_five respEx respEx).2.2.1
    { rank := 3, name := none, points := none } (by decide)

/-- C7: fetchESPN fails with an error carrying the HTTP status code iff
the status is outside 200–299, and on a 2xx status returns the parsed
body. -/
theorem fetchESPN_error_iff {α : Type} (r : HttpResponse α) :
    (fetchESPN r = Except.error r.status ↔ ¬ (200 ≤ r.status ∧ r.status ≤ 299)) ∧
    (fetchESPN r = Except.ok r.body ↔ (200 ≤ r.status ∧ r.status ≤ 299)) := by
  unfold fetchESPN respOk
  by_cases hc : 200 ≤ r.status ∧ r.status ≤ 299
  · simp [hc]
  · simp [hc]

/-- C8 counterexample: an empty query string passes the player-search
input schema (z.string() has no minimum length), so it is not rejected. -/
theorem empty_query_accepted_cex :
    parsePlayerSearchInput (some []) none = Except.ok ([], Tour.both) := rfl

/-- C8 (amended): the player-search schema rejects a missing query before
any upstream call (query is required), but an empty query string satisfies
the schema and is passed through to the handler. -/
theorem query_required_but_empty_allowed (q : List Char) (t : Option Tour) :
    parsePlayerSearchInput none t = Except.error "query: Required" ∧
    parsePlayerSearchInput (some q) t = Except.ok (q, t.getD Tour.both) :=
  ⟨rfl, rfl⟩

/-- C5: every player-search hit matches the lowercased query in one of
the three name fields (OR semantics), the returned list is sorted
ascending by rank, and empty upstream ranking lists yield found = 0 with
an empty players list. -/
theorem player_search_spec (q : List Char) (t : Tour) (atpD wtaD : RankResponse) :
    (∀ p ∈ (playerSearchHandler q t atpD wtaD).players,
      (strIncludes (optLower p.name) (toLowerStr q)
        || strIncludes (optLower p.firstName) (toLowerStr q)
        || strIncludes (optLower p.lastName) (toLowerStr q)) = true) ∧
    (playerSearchHandler q t atpD wtaD).players.Pairwise (fun a b => a.rank ≤ b.rank) ∧
    ((∀ td ∈ selectRank t atpD wtaD, (ranksChain td.2).getD [] = []) →
      (playerSearchHandler q t atpD wtaD).found = 0 ∧
      (playerSearchHandler q t atpD wtaD).players = []) := by
  refine ⟨?_, ?_, ?_⟩
  · intro p hp
    simp only [playerSearchHandler, List.mem_mergeSort] at hp
    obtain ⟨td, _, r, _, hm, rfl⟩ := mem_searchPlayers hp
    simpa [matchesQuery, mkHit] using hm
  · have htrans : ∀ a b c : SearchHit, hitLe a b → hitLe b c → hitLe a c := by
      intro a b c h1 h2
      simp only [hitLe, decide_eq_true_eq] at *
      omega
    have htotal : ∀ a b : SearchHit, hitLe a b || hitLe b a := by
      intro a b
      simp only [hitLe, Bool.or_eq_true, decide_eq_true_eq]
      omega
    have hs := List.sorted_mergeSort htrans htotal (searchPlayers q t atpD wtaD)
    exact hs.imp fun hab => by simpa [hitLe] using hab
  · intro hall
    have hsp : searchPlayers q t atpD wtaD = [] := by
      refine List.eq_nil_iff_forall_not_mem.mpr fun p hp => ?_
      obtain ⟨td, htd, r, hr, _, _⟩ := mem_searchPlayers hp
      rw [hall td htd] at hr
      exact absurd hr (List.not_mem_nil r)
    constructor
    · show (searchPlayers q t atpD wtaD).length = 0
      rw [hsp]; rfl
    · show (searchPlayers q t atpD wtaD).mergeSort hitLe = []
      rw [hsp, List.mergeSort_nil]

/-- Witness for C5 applied to empty upstream ranking lists. -/
theorem player_search_spec_witness :
    (playerSearchHandler ['x'] Tour.both { rankings := none } { rankings := none }).found = 0 ∧
    (playerSearchHandler ['x'] Tour.both { rankings := none } { rankings := none }).players = [] :=
  (player_search_spec ['x'] Tour.both { rankings := none } { rankings := none }).2.2
    (by decide)

/-- C10: with the empty query every entry of every selected tour's
upstream ranking list is returned (the output is a permutation of all
mapped entries, and found counts them all). -/
theorem empty_query_returns_everything (t : Tour) (atpD wtaD : RankResponse) :
    (playerSearchHandler [] t atpD wtaD).players.Perm (allSelectedHits t atpD wtaD) ∧
    (playerSearchHandler [] t atpD wtaD).found = (allSelectedHits t atpD wtaD).length := by
  have hsp : searchPlayers [] t atpD wtaD = allSelectedHits t atpD wtaD := by
    unfold searchPlayers allSelectedHits
    refine congrArg (List.flatMap (selectRank t atpD wtaD)) (funext fun td => ?_)
    have hfil : ((ranksChain td.2).getD []).filter (matchesQuery (toLowerStr [])) =
        (ranksChain td.2).getD [] :=
      List.filter_eq_self.mpr fun a _ => by
        simp [matchesQuery, toLowerStr, strIncludes]
    rw [hfil]
  constructor
  · show ((searchPlayers [] t atpD wtaD).mergeSort hitLe).Perm _
    rw [hsp]
    exact List.mergeSort_perm _ _
  · show (searchPlayers [] t atpD wtaD).length = _
    rw [hsp]

theorem length_filter_add_length_filter_not (p : α → Bool) (l : List α) :
    (l.filter p).length + (l.filter fun a => !p a).length = l.length := by
  induction l with
  | nil => rfl
  | cons a l ih =>
    cases ha : p a <;> simp [List.filter_cons, ha, ← ih] <;> omega

/-- C4: the live-matches output is partitioned with all live matches
before all non-live matches, liveCount counts the live entries, and
liveCount equals totalMatches minus the non-live count. -/
theorem live_matches_partition (t : Tour) (atpD wtaD : ScoreboardResponse) :
    (liveMatchesHandler t atpD wtaD).matches'.Pairwise (fun a b => b.isLive → a.isLive) ∧
    (liveMatchesHandler t atpD wtaD).liveCount =
      ((liveMatchesHandler t atpD wtaD).matches'.filter Match.isLive).length ∧
    (liveMatchesHandler t atpD wtaD).liveCount =
      (liveMatchesHandler t atpD wtaD).totalMatches -
        ((liveMatchesHandler t atpD wtaD).matches'.filter fun m => !m.isLive).length := by
  refine ⟨?_, rfl, ?_⟩
  · have htrans : ∀ a b c : Match, matchLe a b → matchLe b c → matchLe a c := by
      intro a b c h1 h2
      cases hA : a.isLive <;> cases hB : b.isLive <;> cases hC : c.isLive <;>
        simp_all [matchLe] <;> omega
    have htotal : ∀ a b : Match, matchLe a b || matchLe b a := by
      intro a b
      cases hA : a.isLive <;> cases hB : b.isLive <;> simp_all [matchLe] <;> omega
    have hs := List.sorted_mergeSort htrans htotal
      (buildMatches (selectScore t atpD wtaD))
    refine hs.imp fun {a b} hab => ?_
    intro hbl
    by_contra ha
    simp_all [matchLe]
  · show (((buildMatches (selectScore t atpD wtaD)).mergeSort matchLe).filter
        Match.isLive).length =
      ((buildMatches (selectScore t atpD wtaD)).mergeSort matchLe).length -
        (((buildMatches (selectScore t atpD wtaD)).mergeSort matchLe).filter
          fun m => !m.isLive).length
    have := length_filter_add_length_filter_not Match.isLive
      ((buildMatches (selectScore t atpD wtaD)).mergeSort matchLe)
    omega

theorem mem_dedupeById_not_seen {l : List Article} {seen : List (Option String)}
    {a : Article} (h : a ∈ dedupeById l seen) : a.id ∉ seen := by
  induction l generalizing seen with
  | nil => simp [dedupeById] at h
  | cons b rest ih =>
    rw [dedupeById] at h
    by_cases hb : b.id ∈ seen
    · rw [if_pos hb] at h
      exact ih h
    · rw [if_neg hb] at h
      rcases List.mem_cons.mp h with rfl | h'
      · exact hb
      · exact fun hin => ih h' (List.mem_cons_of_mem _ hin)

theorem dedupeById_pairwise_ne {l : List Article} {seen : List (Option String)} :
    (dedupeById l seen).Pairwise (fun a b => a.id ≠ b.id) := by
  induction l generalizing seen with
  | nil => exact List.Pairwise.nil
  | cons b rest ih =>
    rw [dedupeById]
    by_cases hb : b.id ∈ seen
    · rw [if_pos hb]
      exact ih
    · rw [if_neg hb]
      refine List.Pairwise.cons (fun a ha hba => ?_) ih
      exact mem_dedupeById_not_seen ha (hba ▸ List.mem_cons_self _ _)

theorem head_filter_of_mem_dedupeById {l : List Article} {seen : List (Option String)}
    {a : Article} (h : a ∈ dedupeById l seen) :
    (l.filter fun x => x.id == a.id).head? = some a := by
  induction l generalizing seen with
  | nil => simp [dedupeById] at h
  | cons b rest ih =>
    rw [dedupeById] at h
    by_cases hb : b.id ∈ seen
    · rw [if_pos hb] at h
      have hnot := mem_dedupeById_not_seen h
      have hne : (b.id == a.id) = false :=
        beq_eq_false_iff_ne.mpr fun he => hnot (he ▸ hb)
      simp only [List.filter_cons, hne, Bool.false_eq_true, if_false]
      exact ih h
    · rw [if_neg hb] at h
      rcases List.mem_cons.mp h with rfl | h'
      · simp [List.filter_cons]
      · have hnot := mem_dedupeById_not_seen h'
        have hne : (b.id == a.id) = false :=
          beq_eq_false_iff_ne.mpr fun he => hnot (he ▸ List.mem_cons_self _ _)
        simp only [List.filter_cons, hne, Bool.false_eq_true, if_false]
        exact ih h'

theorem exists_mem_dedupeById {l : List Article} {seen : List (Option String)}
    {i : Option String} (hi : i ∈ l.map Article.id) (hs : i ∉ seen) :
    ∃ a ∈ dedupeById l seen, a.id = i := by
  induction l generalizing seen with
  | nil => simp at hi
  | cons b rest ih =>
    rw [dedupeById]
    by_cases hb : b.id ∈ seen
    · rw [if_pos hb]
      rcases List.mem_cons.mp hi with he | hi'
      · exact absurd (he ▸ hb) hs
      · exact ih hi' hs
    · rw [if_neg hb]
      by_cases hib : i = b.id
      · exact ⟨b, List.mem_cons_self _ _, hib.symm⟩
      · rcases List.mem_cons.mp hi with he | hi'
        · exact absurd he hib
        · obtain ⟨a, ha, hai⟩ := ih hi' fun hmem => by
            rcases List.mem_cons.mp hmem with h1 | h2
            exacts [hib h1, hs h2]
          exact ⟨a, List.mem_cons_of_mem _ ha, hai⟩

theorem length_filter_le_one_of_pairwise {l : List Article} {i : Option String}
    (h : l.Pairwise (fun a b => a.id ≠ b.id)) :
    (l.filter fun x => x.id == i).length ≤ 1 := by
  induction l with
  | nil => simp
  | cons b rest ih =>
    rw [List.pairwise_cons] at h
    by_cases hb : (b.id == i) = true
    · have hbi : b.id = i := beq_iff_eq.mp hb
      have hrest : rest.filter (fun x => x.id == i) = [] :=
        List.filter_eq_nil_iff.mpr fun x hx hxi => by
          have hne := h.1 x hx
          exact hne (by rw [hbi, ← beq_iff_eq.mp hxi])
      simp [List.filter_cons, hb, hrest]
    · simp only [List.filter_cons, hb, Bool.false_eq_true, if_false]
      exact ih h.2

theorem jsTake_sublist (xs : List α) (e : Int) : (jsTake xs e).Sublist xs := by
  unfold jsTake
  split <;> exact List.take_sublist _ _

/-- C3 counterexample: the dedupe runs before the limit truncation, so
with limit 0 the shared id "a" appears in the fetched lists but zero (not
exactly one) entries with that id are returned. -/
theorem news_exactly_one_cex :
    (some "a" ∈ (newsAll Tour.both atpNewsEx wtaNewsEx).map Article.id) ∧
    ¬ (((newsHandler Tour.both atpNewsEx wtaNewsEx (some 0)).articles.filter
        fun a => a.id == some "a").length = 1) := by
  decide

/-- C3 (amended): for every id occurring among the fetched articles, the
merged list sorted descending by published and deduplicated contains,
before the limit truncation, exactly one entry with that id, and every
entry of that deduplicated list — in particular that unique one — is the
first entry with its id in the sorted order (so the newest duplicate
wins); every article the handler returns is likewise the first entry with
its id in the sorted order, and no id occurs twice in the output. -/
theorem news_dedupe_spec (t : Tour) (atpD wtaD : NewsResponse) (li : Option Int)
    (i : Option String) (hocc : i ∈ (newsAll t atpD wtaD).map Article.id) :
    ((newsDeduped t atpD wtaD).filter fun a => a.id == i).length = 1 ∧
    (∀ a ∈ newsDeduped t atpD wtaD,
      ((newsSorted t atpD wtaD).filter fun x => x.id == a.id).head? = some a) ∧
    (∀ a ∈ (newsHandler t atpD wtaD li).articles,
      ((newsSorted t atpD wtaD).filter fun x => x.id == a.id).head? = some a) ∧
    ((newsHandler t atpD wtaD li).articles.map Article.id).Nodup := by
  have hsortmem : i ∈ (newsSorted t atpD wtaD).map Article.id := by
    have hperm : (newsSorted t atpD wtaD).Perm (newsAll t atpD wtaD) :=
      List.mergeSort_perm _ _
    exact (hperm.map Article.id).mem_iff.mpr hocc
  have hmemout : ∀ a ∈ (newsHandler t atpD wtaD li).articles,
      a ∈ newsDeduped t atpD wtaD := by
    intro a ha
    exact (jsTake_sublist (newsDeduped t atpD wtaD)
      (min (li.getD 10) 25)).subset ha
  refine ⟨?_, ?_, ?_, ?_⟩
  · have hle : ((newsDeduped t atpD wtaD).filter fun a => a.id == i).length ≤ 1 :=
      length_filter_le_one_of_pairwise dedupeById_pairwise_ne
    obtain ⟨a, ha, hai⟩ := exists_mem_dedupeById hsortmem (List.not_mem_nil i)
    have hmemf : a ∈ (newsDeduped t atpD wtaD).filter fun x => x.id == i :=
      List.mem_filter.mpr ⟨ha, by simp [hai]⟩
    have hpos := List.length_pos_of_mem hmemf
    omega
  · intro a ha
    exact head_filter_of_mem_dedupeById ha
  · intro a ha
    exact head_filter_of_mem_dedupeById (hmemout a ha)
  · have hpw2 : ((newsHandler t atpD wtaD li).articles).Pairwise
        (fun a b => a.id ≠ b.id) :=
      List.Pairwise.sublist
        (jsTake_sublist (newsDeduped t atpD wtaD) (min (li.getD 10) 25))
        dedupeById_pairwise_ne
    show ((newsHandler t atpD wtaD li).articles.map Article.id).Pairwise (· ≠ ·)
    exact List.pairwise_map.mpr hpw2

/-- Witness for C3 at the concrete shared-id article pair. -/
theorem news_dedupe_spec_witness :
    ((newsDeduped Tour.both atpNewsEx wtaNewsEx).filter
      fun a => a.id == some "a").length = 1 :=
  (news_dedupe_spec Tour.both atpNewsEx wtaNewsEx (some 10) (some "a")
    (by decide)).1

end TennisIntel
